import Mathlib

/-!
Verification of the real-time event stream client of the SentinelIQ admin
dashboard (repository collins987/IQ-main).

The embedding follows the implementation of the useWebSocket hook that
carries the reconnection policy (the variant shipped in the repository with
exponential backoff, an attempt ceiling and an authentication-failure code
set; in the sources provided it appears as src/unnamed/part_008), together
with the dashboard state slice (dashboardSlice, src/unnamed/part_007) and
the DashboardEvent shape (dashboardApi, src/unnamed/part_012).

Conventions of the embedding:
* JavaScript JSON values are modelled by the inductive type Json below; the
  undefined value produced by a missing object property is the constructor
  Json.undef, and JSON numbers are modelled as integers (no claim examines
  numeric payloads).
* The mutable refs of the hook (wsRef, reconnectTimeoutRef,
  reconnectAttemptsRef, isConnectingRef, isMountedRef, pingIntervalRef) are
  the fields of the state record WSState.  Sockets are kept in a ghost list
  so that handle liveness can be observed: index j in WSState.sockets is the
  j-th WebSocket object ever constructed, with its readyState and whether
  its onclose handler is still attached.
* Effects of the hook (dispatching to the store, sending a frame, creating
  or closing a socket, scheduling the reconnect timeout) are recorded as an
  explicit list of Action values returned next to the new state.
* A JSON.parse failure in onmessage is modelled by the parsed input being
  none; the surrounding try/catch then only logs, which is the empty action
  list.
-/

namespace IQ

/-- JSON values as seen by the browser client.  Json.undef models the
undefined value of a missing property; arrays are omitted because no frame
inspected by the hook carries one, and numbers are modelled as integers. -/
inductive Json where
  | undef
  | null
  | bool (b : Bool)
  | num (n : Int)
  | str (s : String)
  | obj (fields : List (String × Json))

/-- Property access data[k]: undefined when the key is missing or the value
is not an object. -/
def jget : Json → String → Json
  | Json.obj fields, k =>
      match fields.find? (fun p => p.fst == k) with
      | some p => p.snd
      | none => Json.undef
  | _, _ => Json.undef

/-- JavaScript truthiness of a JSON value. -/
def truthy : Json → Bool
  | Json.undef => false
  | Json.null => false
  | Json.bool b => b
  | Json.num n => n != 0
  | Json.str s => s != ""
  | Json.obj _ => true

/-- The short-circuit defaulting idiom a || b of the source. -/
def jor (a b : Json) : Json :=
  if truthy a then a else b

/-- Strict equality of a JSON value with a string literal, as in the
comparisons data.type === some-literal of the source. -/
def isStr (j : Json) (s : String) : Bool :=
  match j with
  | Json.str t => t == s
  | _ => false

/-- The DashboardEvent record of dashboardApi.  The hook fills it from an
untyped wire payload, so every field is a runtime JSON value here. -/
structure DashboardEvent where
  id : Json
  type : Json
  action : Json
  severity : Json
  actor_id : Json
  target : Json
  message : Json
  timestamp : Json
  metadata : Json

/-- The domain event the onmessage handler builds from a parsed frame,
field by field as in the source; freshId stands for the value produced by
crypto.randomUUID(). -/
def mkDashboardEvent (data : Json) (freshId : String) : DashboardEvent :=
  let payload := jget data "payload"
  { id := jor (jget payload "id") (Json.str freshId)
    type := jget data "type"
    action := jor (jget payload "action") (jget data "type")
    severity := jor (jget payload "severity") (Json.str "info")
    actor_id := jor (jget payload "actor_id") (Json.str "")
    target := jor (jget payload "target") Json.null
    message := jor (jget payload "message") (jget data "type")
    timestamp := jget data "timestamp"
    metadata := jor (jget payload "metadata") Json.null }

/-- The tagged classification of an inbound frame described by the spec;
none as input stands for a frame that failed JSON.parse. -/
inductive Classified where
  | heartbeat
  | connectionAck
  | domainEvent (e : DashboardEvent)
  | unparseable

/-- Classification of one raw frame, following the branch structure of the
onmessage handler. -/
def classify (parsed : Option Json) (freshId : String) : Classified :=
  match parsed with
  | none => Classified.unparseable
  | some data =>
      if isStr (jget data "type") "heartbeat" then Classified.heartbeat
      else if isStr (jget data "type") "connected" || isStr (jget data "type") "pong" then
        Classified.connectionAck
      else if truthy (jget data "type") && truthy (jget data "payload") then
        Classified.domainEvent (mkDashboardEvent data freshId)
      else Classified.unparseable

/-- Observable effects of the hook: socket construction and teardown,
scheduling of the reconnect timeout, the outbound ping frame, and the two
store dispatches (addEvent and addNotification). -/
inductive Action where
  | createSocket (j : Nat)
  | closeSocket (j : Nat)
  | scheduleReconnect (delayMs : Nat)
  | sendPing
  | appendEvent (e : DashboardEvent)
  | notify (kind : String) (message : Json)

/-- The effect of the onmessage handler on one frame: the body of the
try/catch, with a parse failure (none) reaching only the catch branch. -/
def onmessageActs (parsed : Option Json) (freshId : String) : List Action :=
  match parsed with
  | none => []
  | some data =>
      if isStr (jget data "type") "heartbeat" then [Action.sendPing]
      else if isStr (jget data "type") "connected" || isStr (jget data "type") "pong" then []
      else if truthy (jget data "type") && truthy (jget data "payload") then
        let e := mkDashboardEvent data freshId
        Action.appendEvent e ::
          (if isStr e.severity "high" || isStr e.severity "critical" then
            [Action.notify (if isStr e.severity "critical" then "error" else "warning") e.message]
          else [])
      else []

/-- Configuration constant MAX_RECONNECT_ATTEMPTS of the hook. -/
def MAX_RECONNECT_ATTEMPTS : Nat := 5

/-- Configuration constant INITIAL_RECONNECT_DELAY_MS of the hook. -/
def INITIAL_RECONNECT_DELAY_MS : Nat := 1000

/-- Configuration constant MAX_RECONNECT_DELAY_MS of the hook. -/
def MAX_RECONNECT_DELAY_MS : Nat := 30000

/-- The exponential backoff computation getReconnectDelay, as a function of
the current value of reconnectAttemptsRef. -/
def getReconnectDelay (attempts : Nat) : Nat :=
  min (INITIAL_RECONNECT_DELAY_MS * 2 ^ attempts) MAX_RECONNECT_DELAY_MS

/-- The retry predicate of the onclose handler: a closure is retried exactly
when it is not clean and its code is outside the fixed
authentication-failure set 1008, 4001, 4003, 4401 (the negation of the
early-return guard of ws.onclose). -/
def shouldRetry (code : Nat) (wasClean : Bool) : Bool :=
  !wasClean && !(code == 1008 || code == 4001 || code == 4003 || code == 4401)

/-- readyState of a WebSocket handle (OPEN is called opened here because
open is a reserved word). -/
inductive ReadyState where
  | connecting
  | opened
  | closing
  | closed
deriving DecidableEq

/-- A socket is live while it is CONNECTING or OPEN. -/
def isLive : ReadyState → Bool
  | ReadyState.connecting => true
  | ReadyState.opened => true
  | _ => false

/-- One WebSocket object: its readyState and whether its onclose handler is
still attached (connect and cleanup null the handler of a replaced
handle). -/
structure Sock where
  ready : ReadyState
  attached : Bool
deriving DecidableEq

/-- A socket whose onclose callback can still fire: the handler is attached
and the socket has not already closed. -/
def canFire (sk : Sock) : Bool :=
  sk.attached && !(match sk.ready with | ReadyState.closed => true | _ => false)

/-- The mutable state of one mounted useWebSocket instance: the ghost list
of all sockets ever created, the index held by wsRef (none when null), the
pending reconnect timeout with its delay, and the remaining refs. -/
structure WSState where
  sockets : List Sock
  ws : Option Nat
  reconnectTimer : Option Nat
  reconnectAttempts : Nat
  isConnecting : Bool
  isMounted : Bool
  pingActive : Bool
deriving DecidableEq

/-- The externally supplied inputs captured by the connect callback. -/
structure Cfg where
  enabled : Bool
  hasToken : Bool
  isAuthenticated : Bool
deriving DecidableEq

/-- readyState of the socket currently held by wsRef. -/
def readyOf (s : WSState) : Option ReadyState :=
  match s.ws with
  | some j =>
      match s.sockets.get? j with
      | some sk => some sk.ready
      | none => none
  | none => none

/-- Update the readyState of socket j. -/
def setReady (l : List Sock) (j : Nat) (r : ReadyState) : List Sock :=
  match l.get? j with
  | some sk => l.set j { sk with ready := r }
  | none => l

/-- Effect of calling close() on socket j without touching its handlers
(the ws.close() of the onopen handler of an unmounted instance). -/
def closeOnly (l : List Sock) (j : Nat) : List Sock :=
  match l.get? j with
  | some sk =>
      l.set j { sk with ready := if isLive sk.ready then ReadyState.closing else sk.ready }
  | none => l

/-- Effect of nulling the handlers of socket j and closing it (the teardown
of a replaced handle in connect, and of the current handle in cleanup). -/
def detachClose (l : List Sock) (j : Nat) : List Sock :=
  match l.get? j with
  | some sk =>
      l.set j { ready := if isLive sk.ready then ReadyState.closing else sk.ready,
                attached := false }
  | none => l

/-- The message of the retry-exhaustion notification of connect. -/
def giveUpMsg : String := "Live events disconnected. Refresh page to reconnect."

/-- The body of the connect callback.  ctorOk is false when the WebSocket
constructor throws, in which case execution reaches only the catch branch.
The guards, the attempt ceiling, the teardown of a previous handle and the
construction of the new one follow the source line by line. -/
def connect (ctorOk : Bool) (cfg : Cfg) (s : WSState) : WSState × List Action :=
  if !s.isMounted then (s, [])
  else if !cfg.hasToken || !cfg.isAuthenticated || !cfg.enabled then (s, [])
  else if s.isConnecting then (s, [])
  else if readyOf s = some ReadyState.opened then (s, [])
  else if readyOf s = some ReadyState.connecting then (s, [])
  else if MAX_RECONNECT_ATTEMPTS ≤ s.reconnectAttempts then
    (s, [Action.notify "warning" (Json.str giveUpMsg)])
  else
    let s1 : WSState := { s with isConnecting := true }
    let closePair : WSState × List Action :=
      match s1.ws with
      | some j =>
          ({ s1 with sockets := detachClose s1.sockets j, ws := none },
           [Action.closeSocket j])
      | none => (s1, [])
    let s2 := closePair.fst
    if ctorOk then
      let j := s2.sockets.length
      ({ s2 with sockets := s2.sockets ++ [{ ready := ReadyState.connecting, attached := true }],
                 ws := some j },
       closePair.snd ++ [Action.createSocket j])
    else
      ({ s2 with isConnecting := false }, closePair.snd)

/-- The ws.onopen handler for socket j. -/
def onopen (j : Nat) (s : WSState) : WSState × List Action :=
  if !s.isMounted then
    ({ s with sockets := closeOnly s.sockets j }, [Action.closeSocket j])
  else
    ({ s with sockets := setReady s.sockets j ReadyState.opened,
              isConnecting := false, reconnectAttempts := 0, pingActive := true },
     [Action.notify "success" (Json.str "Live events connected")])

/-- The ws.onclose handler for socket j with the given close code and
wasClean flag. -/
def onclose (cfg : Cfg) (j : Nat) (code : Nat) (wasClean : Bool) (s : WSState) :
    WSState × List Action :=
  if !s.isMounted then
    ({ s with sockets := setReady s.sockets j ReadyState.closed }, [])
  else
    let s1 : WSState :=
      { s with isConnecting := false, ws := none, pingActive := false,
               sockets := setReady s.sockets j ReadyState.closed }
    if wasClean || code == 1008 || code == 4001 || code == 4003 || code == 4401 then
      (s1, [])
    else if cfg.enabled && s.isMounted then
      let a := s.reconnectAttempts + 1
      ({ s1 with reconnectAttempts := a, reconnectTimer := some (getReconnectDelay a) },
       [Action.scheduleReconnect (getReconnectDelay a)])
    else
      (s1, [])

/-- The cleanup callback: clears both timers, detaches the handlers of the
current handle, closes it when live, and resets wsRef and
isConnectingRef. -/
def cleanup (s : WSState) : WSState × List Action :=
  let s1 : WSState := { s with reconnectTimer := none, pingActive := false }
  match s1.ws with
  | some j =>
      let live :=
        match s1.sockets.get? j with
        | some sk => isLive sk.ready
        | none => false
      ({ s1 with sockets := detachClose s1.sockets j, ws := none, isConnecting := false },
       if live then [Action.closeSocket j] else [])
  | none => ({ s1 with isConnecting := false }, [])

/-- The asynchronous callbacks that can run on a mounted instance: an
external invocation of connect, the firing of the pending reconnect
timeout, the open, close and message events of a socket, and the effect
cleanup. -/
inductive Ev where
  | connect (ctorOk : Bool)
  | timerFire (ctorOk : Bool)
  | sockOpen (j : Nat)
  | sockClose (j : Nat) (code : Nat) (wasClean : Bool)
  | msg (parsed : Option Json) (freshId : String)
  | doCleanup

/-- One interleaving step: the event dispatches to the matching handler.
Socket events are only deliverable to a socket that can still produce them
(an open event needs a connecting socket with handlers attached, a close
event a socket whose onclose can fire, a message an open socket held by
wsRef). -/
def step (cfg : Cfg) (s : WSState) : Ev → WSState × List Action
  | Ev.connect ctorOk => connect ctorOk cfg s
  | Ev.timerFire ctorOk =>
      match s.reconnectTimer with
      | some _ =>
          let s1 : WSState := { s with reconnectTimer := none }
          if s1.isMounted then connect ctorOk cfg s1 else (s1, [])
      | none => (s, [])
  | Ev.sockOpen j =>
      match s.sockets.get? j with
      | some sk =>
          if sk.ready = ReadyState.connecting ∧ sk.attached = true then onopen j s
          else (s, [])
      | none => (s, [])
  | Ev.sockClose j code wasClean =>
      match s.sockets.get? j with
      | some sk => if canFire sk = true then onclose cfg j code wasClean s else (s, [])
      | none => (s, [])
  | Ev.msg parsed freshId =>
      match s.ws with
      | some j =>
          match s.sockets.get? j with
          | some sk =>
              if sk.ready = ReadyState.opened then
                if s.isMounted then (s, onmessageActs parsed freshId) else (s, [])
              else (s, [])
          | none => (s, [])
      | none => (s, [])
  | Ev.doCleanup => cleanup s

/-- Run a sequence of events, accumulating the emitted actions. -/
def runTrace (cfg : Cfg) : WSState → List Ev → WSState × List Action
  | s, [] => (s, [])
  | s, ev :: evs =>
      let p := step cfg s ev
      let q := runTrace cfg p.fst evs
      (q.fst, p.snd ++ q.snd)

/-- The state of a freshly mounted instance: no socket, no timers, attempt
counter zero. -/
def initState : WSState :=
  { sockets := [], ws := none, reconnectTimer := none, reconnectAttempts := 0,
    isConnecting := false, isMounted := true, pingActive := false }

/-- The configuration in which connecting is allowed: feed enabled, token
present, session authenticated. -/
def cfgOn : Cfg := { enabled := true, hasToken := true, isAuthenticated := true }

/-- Action classifiers used to count effects of a trace. -/
def isSchedule : Action → Bool
  | Action.scheduleReconnect _ => true
  | _ => false

/-- Classifier for socket construction actions. -/
def isCreate : Action → Bool
  | Action.createSocket _ => true
  | _ => false

/-- Classifier for store notification dispatches. -/
def isNotifyAct : Action → Bool
  | Action.notify _ _ => true
  | _ => false

/-- Classifier for event buffer appends. -/
def isAppend : Action → Bool
  | Action.appendEvent _ => true
  | _ => false

/-- Classifier for the retry-exhaustion notification. -/
def isGiveUp : Action → Bool
  | Action.notify k m => k == "warning" && isStr m giveUpMsg
  | _ => false

/-- Events that are not an external re-invocation of connect (the machine
driving itself: timers, socket callbacks, cleanup). -/
def noConnectEv : Ev → Bool
  | Ev.connect _ => false
  | _ => true

/-- Number of live sockets in a state. -/
def liveCount (s : WSState) : Nat :=
  s.sockets.countP (fun sk => isLive sk.ready)

/-- A socket that is neither live nor able to fire its onclose again. -/
def deadSock (sk : Sock) : Bool :=
  !(isLive sk.ready) && !(canFire sk)

/-- The quiescent shape reached after retry exhaustion: the attempt counter
is at the ceiling, no timeout is pending, and every socket ever created is
dead. -/
def quiet (s : WSState) : Bool :=
  decide (MAX_RECONNECT_ATTEMPTS ≤ s.reconnectAttempts)
    && decide (s.reconnectTimer = none)
    && s.sockets.all deadSock

/-- The run of five consecutive abnormal closures with no intervening open:
the mount effect connects, each connection attempt closes abnormally with
code 1006, and each scheduled timeout fires and reconnects, until the
ceiling is reached. -/
def scenarioEvs : List Ev :=
  [Ev.connect true,
   Ev.sockClose 0 1006 false, Ev.timerFire true,
   Ev.sockClose 1 1006 false, Ev.timerFire true,
   Ev.sockClose 2 1006 false, Ev.timerFire true,
   Ev.sockClose 3 1006 false, Ev.timerFire true,
   Ev.sockClose 4 1006 false, Ev.timerFire true]

/-- State and actions after the retry-exhaustion scenario. -/
def scenarioRun : WSState × List Action := runTrace cfgOn initState scenarioEvs

/-- The settled state after retry exhaustion. -/
def sAfter : WSState := scenarioRun.fst

/-- The actions emitted during the retry-exhaustion scenario. -/
def actsAfter : List Action := scenarioRun.snd

/-- The one-live-handle invariant: every socket that is live or whose
onclose can still fire is the one currently held by wsRef, which sits at
its index in the ghost list with only dead sockets around it. -/
def InvP (s : WSState) : Prop :=
  (s.ws = none → ∀ sk ∈ s.sockets, deadSock sk = true)
  ∧ (∀ j, s.ws = some j →
      ∃ A sk B, s.sockets = A ++ sk :: B ∧ A.length = j
        ∧ (∀ x ∈ A, deadSock x = true) ∧ (∀ x ∈ B, deadSock x = true))

/-- The selectable time ranges of the dashboard slice. -/
inductive TimeRange where
  | h1
  | h6
  | h24
  | d7
deriving DecidableEq

/-- One entry of the notification feed of the dashboard slice. -/
structure NotificationEntry where
  id : String
  type : String
  message : String
  timestamp : String
deriving DecidableEq

/-- The state of the dashboard slice.  Events are opaque here. -/
structure DashboardState where
  selectedTimeRange : TimeRange
  sidebarCollapsed : Bool
  liveEventsEnabled : Bool
  recentEvents : List DashboardEvent
  notifications : List NotificationEntry

/-- The initialState of the dashboard slice. -/
def initialState : DashboardState :=
  { selectedTimeRange := TimeRange.h24, sidebarCollapsed := false,
    liveEventsEnabled := true, recentEvents := [], notifications := [] }

/-- Reducer addEvent: head insertion over the first 99 retained entries, so
the buffer is capped at 100. -/
def addEvent (e : DashboardEvent) (s : DashboardState) : DashboardState :=
  { s with recentEvents := e :: s.recentEvents.take 99 }

/-- Reducer clearEvents. -/
def clearEvents (s : DashboardState) : DashboardState :=
  { s with recentEvents := [] }

/-- Reducer addNotification; freshId stands for crypto.randomUUID() and now
for new Date().toISOString(). -/
def addNotification (freshId now kind message : String) (s : DashboardState) :
    DashboardState :=
  { s with notifications :=
      s.notifications ++ [{ id := freshId, type := kind, message := message, timestamp := now }] }

/-- Reducer removeNotification. -/
def removeNotification (nid : String) (s : DashboardState) : DashboardState :=
  { s with notifications := s.notifications.filter (fun n => n.id != nid) }

/-- Reducer clearNotifications. -/
def clearNotifications (s : DashboardState) : DashboardState :=
  { s with notifications := [] }

/-- Sequential application of addEvent, oldest first. -/
def addEvents : List DashboardEvent → DashboardState → DashboardState
  | [], s => s
  | e :: es, s => addEvents es (addEvent e s)

/-- The heartbeat frame of the spec scenario. -/
def hbFrame : Json := Json.obj [("type", Json.str "heartbeat")]

/-- The critical risk alert frame of the spec scenario. -/
def riskFrame : Json :=
  Json.obj [("type", Json.str "risk_alert"),
            ("payload", Json.obj [("message", Json.str "m"), ("severity", Json.str "critical")]),
            ("timestamp", Json.str "T")]

/-- The same frame with severity high. -/
def highFrame : Json :=
  Json.obj [("type", Json.str "risk_alert"),
            ("payload", Json.obj [("message", Json.str "m"), ("severity", Json.str "high")]),
            ("timestamp", Json.str "T")]

/-- A well-formed domain frame whose wire payload omits the timestamp. -/
def noTsFrame : Json :=
  Json.obj [("type", Json.str "export_job"), ("payload", Json.obj [])]

/-- Whether a JSON field value is populated, i.e. present at all. -/
def populated (j : Json) : Bool :=
  match j with
  | Json.undef => false
  | _ => true

/-- A concrete opaque event used to instantiate buffer theorems. -/
def mkEv (i : Nat) : DashboardEvent :=
  { id := Json.num (Int.ofNat i), type := Json.str "system", action := Json.str "tick",
    severity := Json.str "info", actor_id := Json.str "", target := Json.null,
    message := Json.str "m", timestamp := Json.str "ts", metadata := Json.null }

/-- A state holding one connecting socket, used to instantiate the
idempotence theorem. -/
def conSockState : WSState :=
  { sockets := [{ ready := ReadyState.connecting, attached := true }], ws := some 0,
    reconnectTimer := none, reconnectAttempts := 0,
    isConnecting := false, isMounted := true, pingActive := false }

theorem shouldRetry_eq_not (code : Nat) (wasClean : Bool) :
    shouldRetry code wasClean
      = !(wasClean || code == 1008 || code == 4001 || code == 4003 || code == 4401) := by
  cases wasClean <;> simp [shouldRetry]

theorem onclose_not_retry (cfg : Cfg) (j code : Nat) (wasClean : Bool) (s : WSState)
    (hm : s.isMounted = true)
    (hc : (wasClean || code == 1008 || code == 4001 || code == 4003 || code == 4401) = true) :
    onclose cfg j code wasClean s
      = ({ s with isConnecting := false, ws := none, pingActive := false,
                  sockets := setReady s.sockets j ReadyState.closed }, []) := by
  simp [onclose, hm, hc]

theorem onclose_retry (cfg : Cfg) (j code : Nat) (wasClean : Bool) (s : WSState)
    (hm : s.isMounted = true) (he : cfg.enabled = true)
    (hc : (wasClean || code == 1008 || code == 4001 || code == 4003 || code == 4401) = false) :
    onclose cfg j code wasClean s
      = ({ s with isConnecting := false, ws := none, pingActive := false,
                  sockets := setReady s.sockets j ReadyState.closed,
                  reconnectAttempts := s.reconnectAttempts + 1,
                  reconnectTimer := some (getReconnectDelay (s.reconnectAttempts + 1)) },
         [Action.scheduleReconnect (getReconnectDelay (s.reconnectAttempts + 1))]) := by
  simp [onclose, hm, he, hc]

/-- C1: for every attempt number n the reconnection delay computed by the
backoff function equals min(1000 * 2 ^ n, 30000), with the exact table of
small values, and the delay scheduled by an abnormal closure is exactly
this function applied to the attempt number of the scheduled retry. -/
theorem c1_delay (n : Nat) (cfg : Cfg) (s : WSState) (j code : Nat) (wasClean : Bool)
    (hm : s.isMounted = true) (he : cfg.enabled = true)
    (hr : shouldRetry code wasClean = true) :
    getReconnectDelay n = min (1000 * 2 ^ n) 30000
    ∧ (getReconnectDelay 0 = 1000 ∧ getReconnectDelay 1 = 2000 ∧ getReconnectDelay 2 = 4000
       ∧ getReconnectDelay 3 = 8000 ∧ getReconnectDelay 4 = 16000
       ∧ getReconnectDelay 5 = 30000)
    ∧ (onclose cfg j code wasClean s).snd
        = [Action.scheduleReconnect (min (1000 * 2 ^ (s.reconnectAttempts + 1)) 30000)] := by
  have hc : (wasClean || code == 1008 || code == 4001 || code == 4003 || code == 4401) = false := by
    rw [shouldRetry_eq_not] at hr
    simpa using hr
  refine ⟨rfl, by decide, ?_⟩
  rw [onclose_retry cfg j code wasClean s hm he hc]
  rfl

theorem c1_delay_witness :
    getReconnectDelay 0 = min (1000 * 2 ^ 0) 30000 :=
  (c1_delay 0 cfgOn initState 0 1006 false rfl rfl (by decide)).1

/-- C2: on a mounted, enabled instance a close event schedules a reconnect
exactly when the closure is retryable; a clean close or an
authentication-failure code (in particular 4401 with wasClean false)
schedules nothing, settles wsRef to null and leaves the attempt counter
unchanged. -/
theorem c2_retryGate (cfg : Cfg) (s : WSState) (j code : Nat) (wasClean : Bool)
    (hm : s.isMounted = true) (he : cfg.enabled = true) :
    ((onclose cfg j code wasClean s).snd.countP isSchedule
        = if shouldRetry code wasClean then 1 else 0)
    ∧ (shouldRetry code wasClean = false →
        (onclose cfg j code wasClean s).fst.reconnectAttempts = s.reconnectAttempts
        ∧ (onclose cfg j code wasClean s).fst.ws = none
        ∧ (onclose cfg j code wasClean s).snd = [])
    ∧ ((onclose cfg j 4401 false s).fst.reconnectAttempts = s.reconnectAttempts
        ∧ (onclose cfg j 4401 false s).fst.ws = none
        ∧ (onclose cfg j 4401 false s).snd = []) := by
  have h4 : onclose cfg j 4401 false s
      = ({ s with isConnecting := false, ws := none, pingActive := false,
                  sockets := setReady s.sockets j ReadyState.closed }, []) :=
    onclose_not_retry cfg j 4401 false s hm (by decide)
  have hsr := shouldRetry_eq_not code wasClean
  cases hc : (wasClean || code == 1008 || code == 4001 || code == 4003 || code == 4401) with
  | true =>
      rw [onclose_not_retry cfg j code wasClean s hm hc]
      rw [hc] at hsr
      refine ⟨by simp [hsr], fun _ => ⟨rfl, rfl, rfl⟩, by rw [h4]; exact ⟨rfl, rfl, rfl⟩⟩
  | false =>
      rw [onclose_retry cfg j code wasClean s hm he hc]
      rw [hc] at hsr
      refine ⟨by simp [hsr, isSchedule], ?_, by rw [h4]; exact ⟨rfl, rfl, rfl⟩⟩
      intro hfalse
      rw [hfalse] at hsr
      simp at hsr

theorem c2_retryGate_witness :
    (onclose cfgOn 0 4401 false initState).fst.reconnectAttempts
      = initState.reconnectAttempts :=
  (c2_retryGate cfgOn initState 0 4401 false rfl rfl).2.2.1

/-- C4 counterexample: the frame with a type and a payload but no timestamp
is mapped to a domain event, reaches the sink (exactly one append), yet its
timestamp field is not populated. -/
theorem c4_populated_counterexample :
    (onmessageActs (some noTsFrame) "uuid-1").countP isAppend = 1
    ∧ classify (some noTsFrame) "uuid-1"
        = Classified.domainEvent (mkDashboardEvent noTsFrame "uuid-1")
    ∧ populated (mkDashboardEvent noTsFrame "uuid-1").timestamp = false :=
  ⟨rfl, rfl, rfl⟩

theorem truthy_jor (a b : Json) (hb : truthy b = true) : truthy (jor a b) = true := by
  unfold jor
  split
  next h => exact h
  next => exact hb

/-- C4 (amended): every domain event the normalizer pushes has type,
severity, message, action and id populated (with the defaults severity
info, message and action falling back to the type, and the id falling back
to the locally generated value), while the timestamp is copied verbatim
from the frame and may be absent when the frame omits it. -/
theorem c4_populated_amended (data : Json) (freshId : String)
    (ht : truthy (jget data "type") = true) (hf : freshId ≠ "") :
    truthy (mkDashboardEvent data freshId).type = true
    ∧ truthy (mkDashboardEvent data freshId).severity = true
    ∧ truthy (mkDashboardEvent data freshId).message = true
    ∧ truthy (mkDashboardEvent data freshId).action = true
    ∧ truthy (mkDashboardEvent data freshId).id = true
    ∧ (mkDashboardEvent data freshId).timestamp = jget data "timestamp" := by
  have hfid : truthy (Json.str freshId) = true := by
    simp [truthy, bne_iff_ne]
    exact hf
  exact ⟨ht, truthy_jor _ (Json.str "info") rfl, truthy_jor _ _ ht,
         truthy_jor _ _ ht, truthy_jor _ (Json.str freshId) hfid, rfl⟩

theorem c4_populated_amended_witness :
    truthy (mkDashboardEvent noTsFrame "uuid-1").severity = true :=
  (c4_populated_amended noTsFrame "uuid-1" (by decide) (by decide)).2.1

/-- C6: the heartbeat frame classifies as Heartbeat and produces exactly
one outbound ping and nothing else; the critical risk alert classifies as a
domain event of severity critical and produces exactly one append and one
notification of kind error; the high variant produces kind warning. -/
theorem c6_normalizer (freshId : String) :
    classify (some hbFrame) freshId = Classified.heartbeat
    ∧ onmessageActs (some hbFrame) freshId = [Action.sendPing]
    ∧ classify (some riskFrame) freshId
        = Classified.domainEvent (mkDashboardEvent riskFrame freshId)
    ∧ (mkDashboardEvent riskFrame freshId).severity = Json.str "critical"
    ∧ onmessageActs (some riskFrame) freshId
        = [Action.appendEvent (mkDashboardEvent riskFrame freshId),
           Action.notify "error" (Json.str "m")]
    ∧ onmessageActs (some highFrame) freshId
        = [Action.appendEvent (mkDashboardEvent highFrame freshId),
           Action.notify "warning" (Json.str "m")] :=
  ⟨rfl, rfl, rfl, rfl, rfl, rfl⟩

/-- C7: a frame that fails JSON.parse classifies as Unparseable, produces
no actions (nothing appended, nothing notified), and an inbound message
never changes the connection state at all. -/
theorem c7_unparseable (cfg : Cfg) (s : WSState) (freshId : String) :
    classify none freshId = Classified.unparseable
    ∧ onmessageActs none freshId = []
    ∧ step cfg s (Ev.msg none freshId) = (s, [])
    ∧ ∀ parsed, (step cfg s (Ev.msg parsed freshId)).fst = s := by
  have hstep : ∀ parsed, step cfg s (Ev.msg parsed freshId) = (s, [])
      ∨ step cfg s (Ev.msg parsed freshId) = (s, onmessageActs parsed freshId) := by
    intro parsed
    simp only [step]
    split
    · split
      · split
        · split
          · exact Or.inr rfl
          · exact Or.inl rfl
        · exact Or.inl rfl
      · exact Or.inl rfl
    · exact Or.inl rfl
  refine ⟨rfl, rfl, ?_, ?_⟩
  · rcases hstep none with h | h
    · exact h
    · rw [h]; rfl
  · intro parsed
    rcases hstep parsed with h | h <;> rw [h]

/-- C8 counterexample: with the retry policy allowing a retry (code 1006,
unclean) a construction failure in a state where connect proceeds schedules
no reconnect and creates nothing: it is not treated as an abnormal
closure. -/
theorem c8_ctorFailure_counterexample :
    shouldRetry 1006 false = true
    ∧ (connect false cfgOn initState).snd.countP isSchedule = 0
    ∧ (connect false cfgOn initState).snd.countP isCreate = 0
    ∧ (connect false cfgOn initState).fst.reconnectTimer = none
    ∧ (connect false cfgOn initState).fst.ws = none := by
  decide

/-- C8 (amended): when the transport constructor throws, the exception is
absorbed inside connect (the call returns normally in every state), the
attempt simply ends with isConnecting reset: no reconnect is scheduled, no
socket is created, and the timer and attempt counter are untouched. -/
theorem c8_ctorFailure_amended (cfg : Cfg) (s : WSState) :
    (connect false cfg s).fst.reconnectTimer = s.reconnectTimer
    ∧ (connect false cfg s).fst.reconnectAttempts = s.reconnectAttempts
    ∧ (connect false cfg s).snd.countP isSchedule = 0
    ∧ (connect false cfg s).snd.countP isCreate = 0 := by
  simp only [connect]
  repeat' split
  all_goals first
  | exact ⟨rfl, rfl, rfl, rfl⟩
  | simp_all

/-- C10: each dashboard reducer mutates only its designated field: the
event reducers touch only recentEvents, the notification reducers only
notifications, and the three UI fields are untouched by all five. -/
theorem c10_frame (s : DashboardState) (e : DashboardEvent)
    (fid now kind msg nid : String) :
    ((addEvent e s).selectedTimeRange = s.selectedTimeRange
      ∧ (addEvent e s).sidebarCollapsed = s.sidebarCollapsed
      ∧ (addEvent e s).liveEventsEnabled = s.liveEventsEnabled
      ∧ (addEvent e s).notifications = s.notifications)
    ∧ ((clearEvents s).selectedTimeRange = s.selectedTimeRange
      ∧ (clearEvents s).sidebarCollapsed = s.sidebarCollapsed
      ∧ (clearEvents s).liveEventsEnabled = s.liveEventsEnabled
      ∧ (clearEvents s).notifications = s.notifications)
    ∧ ((addNotification fid now kind msg s).selectedTimeRange = s.selectedTimeRange
      ∧ (addNotification fid now kind msg s).sidebarCollapsed = s.sidebarCollapsed
      ∧ (addNotification fid now kind msg s).liveEventsEnabled = s.liveEventsEnabled
      ∧ (addNotification fid now kind msg s).recentEvents = s.recentEvents)
    ∧ ((removeNotification nid s).selectedTimeRange = s.selectedTimeRange
      ∧ (removeNotification nid s).sidebarCollapsed = s.sidebarCollapsed
      ∧ (removeNotification nid s).liveEventsEnabled = s.liveEventsEnabled
      ∧ (removeNotification nid s).recentEvents = s.recentEvents)
    ∧ ((clearNotifications s).selectedTimeRange = s.selectedTimeRange
      ∧ (clearNotifications s).sidebarCollapsed = s.sidebarCollapsed
      ∧ (clearNotifications s).liveEventsEnabled = s.liveEventsEnabled
      ∧ (clearNotifications s).recentEvents = s.recentEvents) :=
  ⟨⟨rfl, rfl, rfl, rfl⟩, ⟨rfl, rfl, rfl, rfl⟩, ⟨rfl, rfl, rfl, rfl⟩,
   ⟨rfl, rfl, rfl, rfl⟩, ⟨rfl, rfl, rfl, rfl⟩⟩

theorem take_append_take {α : Type} (X Y : List α) (n : Nat) :
    (X ++ Y.take n).take n = (X ++ Y).take n := by
  rw [List.take_append_eq_append_take, List.take_append_eq_append_take, List.take_take]
  congr 1
  rw [Nat.min_eq_left (Nat.sub_le n X.length)]

theorem addEvents_recentEvents (es : List DashboardEvent) :
    ∀ (e : DashboardEvent) (s : DashboardState),
      (addEvents (e :: es) s).recentEvents = ((e :: es).reverse ++ s.recentEvents).take 100 := by
  induction es with
  | nil =>
      intro e s
      show (addEvent e s).recentEvents = ([e] ++ s.recentEvents).take 100
      rw [show (100 : Nat) = 99 + 1 from rfl]
      rfl
  | cons e2 es2 ih =>
      intro e s
      show (addEvents (e2 :: es2) (addEvent e s)).recentEvents = _
      rw [ih e2 (addEvent e s)]
      have h1 : (addEvent e s).recentEvents = (e :: s.recentEvents).take 100 := by
        rw [show (100 : Nat) = 99 + 1 from rfl]
        rfl
      rw [h1, take_append_take]
      simp [List.append_assoc]

/-- C5: addEvent inserts at the head and keeps the buffer within the cap of
100, and appending 100 + k events (k at least 1) from any starting buffer
leaves exactly the 100 most recently appended events, most recent
first. -/
theorem c5_buffer (s : DashboardState) (e : DashboardEvent)
    (es : List DashboardEvent) (k : Nat)
    (h1 : es.length = 100 + k) (h2 : 1 ≤ k) :
    ((addEvent e s).recentEvents.head? = some e
      ∧ (addEvent e s).recentEvents.length ≤ 100)
    ∧ (addEvents es s).recentEvents = es.reverse.take 100
    ∧ (addEvents es s).recentEvents.length = 100 := by
  have hmain : (addEvents es s).recentEvents = es.reverse.take 100 := by
    cases es with
    | nil => simp at h1; omega
    | cons e0 es0 =>
        rw [addEvents_recentEvents es0 e0 s]
        have hlen : 100 ≤ (e0 :: es0).reverse.length := by
          rw [List.length_reverse]
          omega
        rw [List.take_append_of_le_length hlen]
  refine ⟨⟨rfl, ?_⟩, hmain, ?_⟩
  · show (e :: s.recentEvents.take 99).length ≤ 100
    simp [List.length_take]
  · rw [hmain, List.length_take, List.length_reverse]
    omega

theorem c5_buffer_witness :
    (addEvents ((List.range 101).map mkEv) initialState).recentEvents.length = 100 :=
  (c5_buffer initialState (mkEv 0) ((List.range 101).map mkEv) 1 (by simp) (by omega)).2.2

theorem quiet_intro (s : WSState) (h1 : MAX_RECONNECT_ATTEMPTS ≤ s.reconnectAttempts)
    (h2 : s.reconnectTimer = none) (h3 : ∀ x ∈ s.sockets, deadSock x = true) :
    quiet s = true := by
  simp only [quiet, Bool.and_eq_true, decide_eq_true_eq, List.all_eq_true]
  tauto

theorem quiet_elim (s : WSState) (hq : quiet s = true) :
    MAX_RECONNECT_ATTEMPTS ≤ s.reconnectAttempts
    ∧ s.reconnectTimer = none
    ∧ ∀ x ∈ s.sockets, deadSock x = true := by
  simp only [quiet, Bool.and_eq_true, decide_eq_true_eq, List.all_eq_true] at hq
  tauto

theorem connect_ceiling (ok : Bool) (cfg : Cfg) (s : WSState)
    (h : MAX_RECONNECT_ATTEMPTS ≤ s.reconnectAttempts) :
    connect ok cfg s = (s, [])
    ∨ connect ok cfg s = (s, [Action.notify "warning" (Json.str giveUpMsg)]) := by
  simp only [connect]
  repeat' split
  all_goals first
  | exact Or.inl rfl
  | exact Or.inr rfl
  | exact absurd h (by assumption)

theorem all_dead_detachClose (l : List Sock) (j : Nat)
    (h : ∀ x ∈ l, deadSock x = true) :
    ∀ x ∈ detachClose l j, deadSock x = true := by
  unfold detachClose
  split
  next sk heq =>
    intro x hx
    rcases List.mem_or_eq_of_mem_set hx with h1 | h1
    · exact h x h1
    · subst h1
      have hd := h sk (List.get?_mem heq)
      simp [deadSock, canFire, Bool.and_eq_true] at hd ⊢
      rcases hd with ⟨hl, _⟩
      simp [hl]
  next => exact h

theorem quiet_step (cfg : Cfg) (s : WSState) (ev : Ev) (hq : quiet s = true) :
    quiet (step cfg s ev).fst = true
    ∧ (step cfg s ev).snd.countP isSchedule = 0
    ∧ (step cfg s ev).snd.countP isCreate = 0
    ∧ (noConnectEv ev = true → (step cfg s ev).snd.countP isNotifyAct = 0) := by
  obtain ⟨hA, hT, hD⟩ := quiet_elim s hq
  cases ev with
  | connect ok =>
      rcases connect_ceiling ok cfg s hA with h | h <;> rw [show step cfg s (Ev.connect ok) = connect ok cfg s from rfl, h]
      · exact ⟨hq, rfl, rfl, fun _ => rfl⟩
      · refine ⟨hq, rfl, rfl, fun hfalse => ?_⟩
        simp [noConnectEv] at hfalse
  | timerFire ok =>
      simp only [step, hT]
      exact ⟨hq, rfl, rfl, fun _ => rfl⟩
  | sockOpen j =>
      simp only [step]
      split
      next sk heq =>
        split
        next hcond =>
          exfalso
          have hd := hD sk (List.get?_mem heq)
          obtain ⟨r, a⟩ := sk
          obtain ⟨h1, h2⟩ := hcond
          subst h1
          subst h2
          simp [deadSock, isLive, canFire] at hd
        next => exact ⟨hq, rfl, rfl, fun _ => rfl⟩
      next => exact ⟨hq, rfl, rfl, fun _ => rfl⟩
  | sockClose j code wasClean =>
      simp only [step]
      split
      next sk heq =>
        split
        next hcond =>
          exfalso
          have hd := hD sk (List.get?_mem heq)
          unfold deadSock at hd
          rw [hcond] at hd
          simp at hd
        next => exact ⟨hq, rfl, rfl, fun _ => rfl⟩
      next => exact ⟨hq, rfl, rfl, fun _ => rfl⟩
  | msg parsed freshId =>
      simp only [step]
      split
      next j heqws =>
        split
        next sk heq =>
          split
          next hro =>
            exfalso
            have hd := hD sk (List.get?_mem heq)
            obtain ⟨r, a⟩ := sk
            subst hro
            simp [deadSock, isLive, canFire] at hd
          next => exact ⟨hq, rfl, rfl, fun _ => rfl⟩
        next => exact ⟨hq, rfl, rfl, fun _ => rfl⟩
      next => exact ⟨hq, rfl, rfl, fun _ => rfl⟩
  | doCleanup =>
      show quiet (cleanup s).fst = true ∧ (cleanup s).snd.countP isSchedule = 0
        ∧ (cleanup s).snd.countP isCreate = 0
        ∧ (noConnectEv Ev.doCleanup = true → (cleanup s).snd.countP isNotifyAct = 0)
      simp only [cleanup]
      split
      next j heqws =>
        refine ⟨?_, ?_, ?_, fun _ => ?_⟩
        · exact quiet_intro _ hA rfl (all_dead_detachClose s.sockets j hD)
        · split <;> rfl
        · split <;> rfl
        · split <;> rfl
      next =>
        exact ⟨quiet_intro _ hA rfl hD, rfl, rfl, fun _ => rfl⟩

theorem quiet_run (cfg : Cfg) :
    ∀ (evs : List Ev) (s : WSState), quiet s = true →
      (runTrace cfg s evs).snd.countP isSchedule = 0
      ∧ (runTrace cfg s evs).snd.countP isCreate = 0
      ∧ (evs.all noConnectEv = true → (runTrace cfg s evs).snd.countP isNotifyAct = 0) := by
  intro evs
  induction evs with
  | nil => exact fun s _ => ⟨rfl, rfl, fun _ => rfl⟩
  | cons ev evs ih =>
      intro s hq
      have hstep := quiet_step cfg s ev hq
      have hrec := ih (step cfg s ev).fst hstep.1
      simp only [runTrace]
      refine ⟨?_, ?_, ?_⟩
      · rw [List.countP_append, hstep.2.1, hrec.1]
      · rw [List.countP_append, hstep.2.2.1, hrec.2.1]
      · intro hall
        simp only [List.all_cons, Bool.and_eq_true] at hall
        rw [List.countP_append, hstep.2.2.2 hall.1, hrec.2.2 hall.2]

/-- C3: after five consecutive abnormal closures with no intervening open,
the scenario emits exactly one give-up notification, the machine is
quiescent, and from the settled state no continuation of events ever
schedules another reconnect or creates another socket; continuations
without an external connect call emit no notification at all. -/
theorem c3_ceiling (evs evs2 : List Ev) (h2 : evs2.all noConnectEv = true) :
    actsAfter.countP isGiveUp = 1
    ∧ actsAfter.countP isSchedule = 5
    ∧ quiet sAfter = true
    ∧ (runTrace cfgOn sAfter evs).snd.countP isSchedule = 0
    ∧ (runTrace cfgOn sAfter evs).snd.countP isCreate = 0
    ∧ (runTrace cfgOn sAfter evs2).snd.countP isNotifyAct = 0 := by
  have hq : quiet sAfter = true := by decide
  exact ⟨by decide, by decide, hq, (quiet_run cfgOn evs sAfter hq).1,
         (quiet_run cfgOn evs sAfter hq).2.1, (quiet_run cfgOn evs2 sAfter hq).2.2 h2⟩

theorem c3_ceiling_witness : actsAfter.countP isGiveUp = 1 :=
  (c3_ceiling [] [] rfl).1

theorem dead_not_live {sk : Sock} (h : deadSock sk = true) : isLive sk.ready = false := by
  cases hl : isLive sk.ready
  · rfl
  · unfold deadSock at h
    rw [hl] at h
    simp at h

theorem fire_not_dead {sk : Sock} (h : canFire sk = true) : deadSock sk = false := by
  unfold deadSock
  rw [h]
  simp

theorem detach_dead (r : ReadyState) :
    deadSock { ready := if isLive r then ReadyState.closing else r, attached := false } = true := by
  cases r <;> rfl

theorem closed_dead (a : Bool) :
    deadSock { ready := ReadyState.closed, attached := a } = true := by
  cases a <;> rfl

theorem get?_append_length {α : Type} (A : List α) (c : α) (B : List α) :
    (A ++ c :: B).get? A.length = some c := by
  induction A with
  | nil => rfl
  | cons a A ih => simpa using ih

theorem set_append_length {α : Type} (A : List α) (c x : α) (B : List α) :
    (A ++ c :: B).set A.length x = A ++ x :: B := by
  induction A with
  | nil => rfl
  | cons a A ih => simp [List.set, ih]

theorem get?_split {α : Type} (A : List α) (c : α) (B : List α) :
    ∀ (j : Nat) (sk : α), (A ++ c :: B).get? j = some sk →
      (j = A.length ∧ sk = c) ∨ sk ∈ A ∨ sk ∈ B := by
  induction A with
  | nil =>
      intro j sk h
      rw [List.nil_append] at h
      cases j with
      | zero =>
          rw [List.get?_cons_zero] at h
          exact Or.inl ⟨rfl, (Option.some.inj h).symm⟩
      | succ n =>
          rw [List.get?_cons_succ] at h
          exact Or.inr (Or.inr (List.get?_mem h))
  | cons a A ih =>
      intro j sk h
      rw [List.cons_append] at h
      cases j with
      | zero =>
          rw [List.get?_cons_zero] at h
          have hsk : a = sk := Option.some.inj h
          subst hsk
          exact Or.inr (Or.inl (List.mem_cons_self a A))
      | succ n =>
          rw [List.get?_cons_succ] at h
          rcases ih n sk h with ⟨hj, hc⟩ | hm | hm
          · exact Or.inl ⟨by simp [hj, List.length_cons], hc⟩
          · exact Or.inr (Or.inl (List.mem_cons_of_mem a hm))
          · exact Or.inr (Or.inr hm)

theorem detachClose_length (l : List Sock) (j : Nat) :
    (detachClose l j).length = l.length := by
  unfold detachClose
  split
  · exact List.length_set l j _
  · rfl

theorem inv_locate (s : WSState) (hInv : InvP s) (j : Nat) (sk : Sock)
    (hg : s.sockets.get? j = some sk) (hnd : deadSock sk = false) :
    s.ws = some j
    ∧ ∃ A B, s.sockets = A ++ sk :: B ∧ A.length = j
        ∧ (∀ x ∈ A, deadSock x = true) ∧ (∀ x ∈ B, deadSock x = true) := by
  rcases hws : s.ws with _ | j'
  · exfalso
    have hd := hInv.1 hws sk (List.get?_mem hg)
    rw [hd] at hnd
    cases hnd
  · obtain ⟨A, c, B, hEq, hLen, hA, hB⟩ := hInv.2 j' hws
    rw [hEq] at hg
    rcases get?_split A c B j sk hg with ⟨hj, hc⟩ | hm | hm
    · subst hc
      refine ⟨by rw [hj, hLen], A, B, hEq, by omega, hA, hB⟩
    · exfalso
      have hd := hA sk hm
      rw [hd] at hnd
      cases hnd
    · exfalso
      have hd := hB sk hm
      rw [hd] at hnd
      cases hnd

theorem detachClose_decomp (A : List Sock) (c : Sock) (B : List Sock) :
    detachClose (A ++ c :: B) A.length
      = A ++ { ready := if isLive c.ready then ReadyState.closing else c.ready,
               attached := false } :: B := by
  unfold detachClose
  rw [get?_append_length]
  exact set_append_length A c _ B

theorem closeOnly_decomp (A : List Sock) (c : Sock) (B : List Sock) :
    closeOnly (A ++ c :: B) A.length
      = A ++ { c with ready := if isLive c.ready then ReadyState.closing else c.ready } :: B := by
  unfold closeOnly
  rw [get?_append_length]
  exact set_append_length A c _ B

theorem setReady_decomp (A : List Sock) (c : Sock) (B : List Sock) (r : ReadyState) :
    setReady (A ++ c :: B) A.length r = A ++ { c with ready := r } :: B := by
  unfold setReady
  rw [get?_append_length]
  exact set_append_length A c _ B

theorem all_dead_mid (A : List Sock) (c : Sock) (B : List Sock)
    (hA : ∀ x ∈ A, deadSock x = true) (hc : deadSock c = true)
    (hB : ∀ x ∈ B, deadSock x = true) :
    ∀ x ∈ A ++ c :: B, deadSock x = true := by
  intro x hx
  rcases List.mem_append.mp hx with h | h
  · exact hA x h
  · rcases List.mem_cons.mp h with h | h
    · rw [h]
      exact hc
    · exact hB x h

theorem inv_connect (ok : Bool) (cfg : Cfg) (s : WSState) (hInv : InvP s) :
    InvP (connect ok cfg s).fst := by
  simp only [connect]
  split
  · exact hInv
  split
  · exact hInv
  split
  · exact hInv
  split
  · exact hInv
  split
  · exact hInv
  split
  · exact hInv
  rcases hws : s.ws with _ | j
  · have hall := hInv.1 hws
    split
    · -- constructor succeeds with no previous handle
      dsimp only
      refine ⟨fun hn => absurd hn (by simp), fun j2 hj2 => ?_⟩
      refine ⟨s.sockets, { ready := ReadyState.connecting, attached := true }, [],
              rfl, Option.some.inj hj2, hall, ?_⟩
      intro x hx
      exact absurd hx (List.not_mem_nil x)
    · exact ⟨fun _ => hall, fun j2 hj2 => absurd hj2 (by simp)⟩
  · obtain ⟨A, c, B, hEq, hLen, hA, hB⟩ := hInv.2 j hws
    have hdc : detachClose s.sockets j
        = A ++ { ready := if isLive c.ready then ReadyState.closing else c.ready,
                 attached := false } :: B := by
      rw [hEq, ← hLen, detachClose_decomp]
    split
    · -- constructor succeeds: new socket appended after tearing down the old one
      dsimp only
      refine ⟨fun hn => absurd hn (by simp), fun j2 hj2 => ?_⟩
      refine ⟨detachClose s.sockets j,
              { ready := ReadyState.connecting, attached := true }, [], rfl, ?_, ?_, ?_⟩
      · exact Option.some.inj hj2
      · rw [hdc]
        exact all_dead_mid A _ B hA (detach_dead c.ready) hB
      · intro x hx
        exact absurd hx (List.not_mem_nil x)
    · -- constructor throws: the old handle is already torn down, wsRef stays null
      dsimp only
      refine ⟨fun _ => ?_, fun j2 hj2 => absurd hj2 (by simp)⟩
      rw [hdc]
      exact all_dead_mid A _ B hA (detach_dead c.ready) hB

theorem inv_step (cfg : Cfg) (s : WSState) (ev : Ev) (hInv : InvP s) :
    InvP (step cfg s ev).fst := by
  cases ev with
  | connect ok => exact inv_connect ok cfg s hInv
  | timerFire ok =>
      simp only [step]
      split
      · split
        · exact inv_connect ok cfg _ hInv
        · exact hInv
      · exact hInv
  | sockOpen j =>
      simp only [step]
      split
      next sk heq =>
        split
        next hcond =>
          have hnd : deadSock sk = false := by
            obtain ⟨r, a⟩ := sk
            obtain ⟨h1, h2⟩ := hcond
            subst h1
            subst h2
            rfl
          obtain ⟨hws, A, B, hEq, hLen, hA, hB⟩ := inv_locate s hInv j sk heq hnd
          simp only [onopen]
          split
          · -- unmounted: the fresh socket is closed again, wsRef keeps pointing at it
            refine ⟨fun hn => ?_, fun j2 hj2 => ?_⟩
            · rw [hws] at hn
              cases hn
            · rw [hws] at hj2
              have hj2' : j2 = j := (Option.some.inj hj2).symm
              subst hj2'
              refine ⟨A, { sk with ready := if isLive sk.ready then ReadyState.closing else sk.ready },
                      B, ?_, hLen, hA, hB⟩
              rw [hEq, ← hLen, closeOnly_decomp]
          · -- mounted: the socket becomes OPEN, still the unique ws handle
            refine ⟨fun hn => ?_, fun j2 hj2 => ?_⟩
            · rw [hws] at hn
              cases hn
            · rw [hws] at hj2
              have hj2' : j2 = j := (Option.some.inj hj2).symm
              subst hj2'
              refine ⟨A, { sk with ready := ReadyState.opened }, B, ?_, hLen, hA, hB⟩
              rw [hEq, ← hLen, setReady_decomp]
        next => exact hInv
      next => exact hInv
  | sockClose j code wasClean =>
      simp only [step]
      split
      next sk heq =>
        split
        next hcond =>
          have hnd : deadSock sk = false := fire_not_dead hcond
          obtain ⟨hws, A, B, hEq, hLen, hA, hB⟩ := inv_locate s hInv j sk heq hnd
          have hsr : setReady s.sockets j ReadyState.closed
              = A ++ { sk with ready := ReadyState.closed } :: B := by
            rw [hEq, ← hLen, setReady_decomp]
          have hmid : deadSock { sk with ready := ReadyState.closed } = true :=
            closed_dead sk.attached
          simp only [onclose]
          split
          · -- unmounted handler body: only the physical close is recorded
            refine ⟨fun hn => ?_, fun j2 hj2 => ?_⟩
            · rw [hws] at hn
              cases hn
            · rw [hws] at hj2
              have hj2' : j2 = j := (Option.some.inj hj2).symm
              subst hj2'
              exact ⟨A, { sk with ready := ReadyState.closed }, B, hsr, hLen, hA, hB⟩
          · split
            · -- clean or auth-coded close: settle with no live socket
              refine ⟨fun _ => ?_, fun j2 hj2 => absurd hj2 (by simp)⟩
              rw [hsr]
              exact all_dead_mid A _ B hA hmid hB
            · split
              · -- retryable close: reconnect scheduled, still no live socket
                refine ⟨fun _ => ?_, fun j2 hj2 => absurd hj2 (by simp)⟩
                rw [hsr]
                exact all_dead_mid A _ B hA hmid hB
              · refine ⟨fun _ => ?_, fun j2 hj2 => absurd hj2 (by simp)⟩
                rw [hsr]
                exact all_dead_mid A _ B hA hmid hB
        next => exact hInv
      next => exact hInv
  | msg parsed freshId =>
      have hfix : (step cfg s (Ev.msg parsed freshId)).fst = s := by
        simp only [step]
        split
        · split
          · split
            · split
              · rfl
              · rfl
            · rfl
          · rfl
        · rfl
      rw [hfix]
      exact hInv
  | doCleanup =>
      simp only [step, cleanup]
      split
      next j heqws =>
        obtain ⟨A, c, B, hEq, hLen, hA, hB⟩ := hInv.2 j heqws
        refine ⟨fun _ => ?_, fun j2 hj2 => absurd hj2 (by simp)⟩
        rw [hEq, ← hLen, detachClose_decomp]
        exact all_dead_mid A _ B hA (detach_dead c.ready) hB
      next => exact hInv

theorem inv_init : InvP initState :=
  ⟨fun _ sk h => absurd h (List.not_mem_nil sk), fun j h => Option.noConfusion h⟩

theorem inv_run (cfg : Cfg) :
    ∀ (evs : List Ev) (s : WSState), InvP s → InvP (runTrace cfg s evs).fst := by
  intro evs
  induction evs with
  | nil => exact fun s h => h
  | cons ev evs ih =>
      intro s h
      simp only [runTrace]
      exact ih _ (inv_step cfg s ev h)

theorem inv_liveCount (s : WSState) (hInv : InvP s) : liveCount s ≤ 1 := by
  rcases hws : s.ws with _ | j
  · have h := hInv.1 hws
    unfold liveCount
    have hz : s.sockets.countP (fun sk => isLive sk.ready) = 0 := by
      rw [List.countP_eq_zero]
      intro a ha
      simp [dead_not_live (h a ha)]
    omega
  · obtain ⟨A, c, B, hEq, hLen, hA, hB⟩ := hInv.2 j hws
    unfold liveCount
    rw [hEq, List.countP_append, List.countP_cons]
    have hAz : A.countP (fun sk => isLive sk.ready) = 0 := by
      rw [List.countP_eq_zero]
      intro a ha
      simp [dead_not_live (hA a ha)]
    have hBz : B.countP (fun sk => isLive sk.ready) = 0 := by
      rw [List.countP_eq_zero]
      intro a ha
      simp [dead_not_live (hB a ha)]
    rw [hAz, hBz]
    cases hc : isLive c.ready <;> simp [hc]

/-- C9: starting while a transport is already connecting or open is a
no-op; a double start from a fresh mounted state leaves exactly one live
handle; in every reachable state at most one live transport handle exists;
and when connect replaces a previous handle it closes the old one before
creating the new one. -/
theorem c9_idempotence (cfg : Cfg) (s : WSState) (j : Nat) (ok : Bool)
    (h1 : s.ws = some j)
    (h2 : readyOf s = some ReadyState.opened ∨ readyOf s = some ReadyState.connecting) :
    connect ok cfg s = (s, [])
    ∧ liveCount (runTrace cfgOn initState [Ev.connect true, Ev.connect true]).fst = 1
    ∧ (∀ (cfg2 : Cfg) (evs : List Ev), liveCount (runTrace cfg2 initState evs).fst ≤ 1)
    ∧ (∀ (cfg3 : Cfg) (s3 : WSState) (j3 : Nat),
        s3.isMounted = true → cfg3.hasToken = true → cfg3.isAuthenticated = true →
        cfg3.enabled = true → s3.isConnecting = false → s3.ws = some j3 →
        readyOf s3 = some ReadyState.closed →
        s3.reconnectAttempts < MAX_RECONNECT_ATTEMPTS →
        (connect true cfg3 s3).snd
          = [Action.closeSocket j3, Action.createSocket s3.sockets.length]) := by
  refine ⟨?_, by decide, ?_, ?_⟩
  · simp only [connect]
    repeat' split
    all_goals first
    | rfl
    | (rcases h2 with h2 | h2 <;> exact absurd h2 (by assumption))
  · intro cfg2 evs
    exact inv_liveCount _ (inv_run cfg2 evs initState inv_init)
  · intro cfg3 s3 j3 hm3 ht3 ha3 he3 hic3 hws3 hrd3 hlt3
    have hlt3' : ¬(MAX_RECONNECT_ATTEMPTS ≤ s3.reconnectAttempts) := by omega
    simp only [connect, hm3, ht3, ha3, he3, hic3, hws3, hrd3, hlt3']
    simp [detachClose_length]

theorem c9_idempotence_witness : connect true cfgOn conSockState = (conSockState, []) :=
  (c9_idempotence cfgOn conSockState 0 true rfl (Or.inr rfl)).1

end IQ
